import Mathlib

/-!
Shallow embedding of the JOBPM scraping pipeline (src/run_scraper.py,
src/scrapers/llm_career.py, src/scrapers/normalizer.py,
src/scrapers/ats_router.py, src/api/models.py) and proofs of the
specification claims about it.

Modelling conventions:
* Python strings are Lean `String`s; `kw in s` is `strIn kw s`
  (substring test); `str.lower()` is `pyLower` (ASCII, which covers every
  keyword and every input the claims mention); `str.strip()` is `pyStrip`;
  all of them defined over character lists so that concrete runs reduce
  inside the kernel.
* Timestamps are integers counted in days (the only arithmetic the source
  performs on them is comparison and subtraction of a day-valued cooldown).
* External collaborators (the HTTP client, html2text, the OpenAI chat
  completion endpoint, SHA-256) are fields of a `World` record passed in;
  the pipeline logic itself is translated from the source.
-/

/-- Decidable equality for `Except`, needed to `decide` concrete runs of
the fallible operations. -/
instance {e a : Type} [DecidableEq e] [DecidableEq a] : DecidableEq (Except e a) := fun x y =>
  match x, y with
  | .ok v, .ok v2 =>
    if h : v = v2 then .isTrue (by rw [h]) else .isFalse (by simp [h])
  | .error v, .error v2 =>
    if h : v = v2 then .isTrue (by rw [h]) else .isFalse (by simp [h])
  | .ok _, .error _ => .isFalse (by simp)
  | .error _, .ok _ => .isFalse (by simp)

set_option maxRecDepth 20000

-- ── Python substring test (`needle in hay`) ─────────────────────────────────

/-- Does the second list start with the first one? -/
def matchHere : List Char → List Char → Bool
  | [], _ => true
  | _ :: _, [] => false
  | c :: cs, d :: ds => c == d && matchHere cs ds

/-- Does `needle` occur as a contiguous run inside the list? -/
def hasSub (needle : List Char) : List Char → Bool
  | [] => matchHere needle []
  | d :: ds => matchHere needle (d :: ds) || hasSub needle ds

/-- Python `needle in hay` on strings. -/
def strIn (needle hay : String) : Bool :=
  hasSub needle.toList hay.toList

/-- Python `any(kw in t for kw in KWS)`. -/
def anyKw (kws : List String) (t : String) : Bool :=
  kws.any (fun kw => strIn kw t)

/-- Python `str.lower()` (ASCII), kept kernel-reducible. -/
def pyLower (s : String) : String :=
  String.mk (s.toList.map Char.toLower)

/-- Python `str.strip()`: whitespace removed from both ends. -/
def pyStrip (s : String) : String :=
  String.mk (((s.toList.dropWhile Char.isWhitespace).reverse.dropWhile
    Char.isWhitespace).reverse)

/-- Python `s[:n]`. -/
def pyTake (s : String) (n : Nat) : String :=
  String.mk (s.toList.take n)

/-- Drop the first `n` characters. -/
def pyDrop (s : String) (n : Nat) : String :=
  String.mk (s.toList.drop n)

/-- Python `s.startswith(p)`. -/
def startsWithPy (s p : String) : Bool :=
  matchHere p.toList s.toList

/-- Split at the first occurrence of `sep`: `(before, after)`. -/
def splitFirstOn (sep : List Char) : List Char → Option (List Char × List Char)
  | [] => if matchHere sep [] then some ([], []) else none
  | c :: cs =>
    if matchHere sep (c :: cs) then some ([], (c :: cs).drop sep.length)
    else
      match splitFirstOn sep cs with
      | some (pre, post) => some (c :: pre, post)
      | none => none

-- ── Seniority inference (src/scrapers/normalizer.py:314-336) ────────────────

def LEADERSHIP_KW : List String :=
  ["director", "vp", "vice president", "head of", "cpo", "chief product"]

def STAFF_KW : List String := ["staff", "principal", "distinguished"]

def LEAD_KW : List String := ["lead", "group", "group product"]

def SENIOR_KW : List String := ["senior", "sr."]

def JUNIOR_KW : List String :=
  ["junior", "associate", "entry", "entry-level", "entry level", "jr."]

def INTERN_KW : List String := ["intern", "internship", "apprentice"]

/-- `infer_seniority` of src/scrapers/normalizer.py. -/
def infer_seniority (title : String) : String :=
  let t := pyLower title
  if anyKw INTERN_KW t then "INTERN"
  else if anyKw LEADERSHIP_KW t then "LEADERSHIP"
  else if anyKw STAFF_KW t then "STAFF"
  else if anyKw LEAD_KW t then "LEAD"
  else if anyKw SENIOR_KW t then "SENIOR"
  else if anyKw JUNIOR_KW t then "JUNIOR"
  else "MID"

-- ── PM relevance filter (src/scrapers/normalizer.py:341-359) ────────────────

def PM_TITLE_KEYWORDS : List String :=
  ["product manager", "product management", "group product", "staff pm",
   "senior pm", "principal pm", "product lead", "vp product", "vp of product",
   "head of product", "chief product", "cpo", "product owner",
   "technical product", "growth pm", "platform pm", "ai pm"]

def PM_EXCLUDE_KEYWORDS : List String :=
  ["product marketing", "product analyst", "data analyst",
   "software engineer", "engineering manager", "designer",
   "product operations analyst"]

/-- `is_pm_role` of src/scrapers/normalizer.py: the exclude list takes
precedence over the include list. -/
def is_pm_role (title : String) : Bool :=
  let t := pyLower title
  if anyKw PM_EXCLUDE_KEYWORDS t then false
  else anyKw PM_TITLE_KEYWORDS t

-- ── Geo inference (src/scrapers/normalizer.py:7-309) ────────────────────────

def REMOTE_KEYWORDS : List String :=
  ["remote", "worldwide", "anywhere", "distributed", "global",
   "fully remote", "work from home", "wfh", "location flexible"]

def EU_COUNTRIES : List String :=
  ["germany", "france", "netherlands", "spain", "italy", "sweden",
   "denmark", "finland", "norway", "poland", "portugal", "belgium",
   "austria", "switzerland", "ireland", "czech republic", "czechia",
   "romania", "hungary", "greece", "slovakia", "croatia", "bulgaria",
   "estonia", "latvia", "lithuania", "luxembourg", "malta", "cyprus",
   "slovenia", "europe", "european union"]

def EU_CITIES : List String :=
  ["berlin", "munich", "hamburg", "frankfurt", "cologne", "düsseldorf",
   "paris", "lyon", "marseille", "bordeaux",
   "amsterdam", "rotterdam", "utrecht", "the hague",
   "madrid", "barcelona", "valencia", "seville",
   "milan", "rome", "florence", "turin",
   "stockholm", "gothenburg", "malmö",
   "copenhagen", "aarhus",
   "helsinki", "oslo",
   "warsaw", "krakow", "wroclaw",
   "lisbon", "porto",
   "brussels", "antwerp",
   "vienna", "zurich", "geneva", "bern",
   "dublin",
   "prague",
   "budapest",
   "bucharest",
   "riga", "tallinn", "vilnius",
   "luxembourg city"]

def US_STATES : List String :=
  ["alabama", "alaska", "arizona", "arkansas", "california", "colorado",
   "connecticut", "delaware", "florida", "georgia", "hawaii", "idaho",
   "illinois", "indiana", "iowa", "kansas", "kentucky", "louisiana",
   "maine", "maryland", "massachusetts", "michigan", "minnesota",
   "mississippi", "missouri", "montana", "nebraska", "nevada",
   "new hampshire", "new jersey", "new mexico", "new york", "north carolina",
   "north dakota", "ohio", "oklahoma", "oregon", "pennsylvania",
   "rhode island", "south carolina", "south dakota", "tennessee", "texas",
   "utah", "vermont", "virginia", "washington", "west virginia",
   "wisconsin", "wyoming", "district of columbia"]

def US_CITIES : List String :=
  ["new york", "san francisco", "los angeles", "chicago", "seattle",
   "boston", "austin", "denver", "atlanta", "miami", "dallas",
   "houston", "phoenix", "portland", "san jose", "san diego",
   "minneapolis", "detroit", "washington dc", "nyc", "sf", "la",
   "united states", "usa", "u.s.", "u.s.a."]

def UK_KEYWORDS : List String :=
  ["london", "manchester", "birmingham", "leeds", "glasgow", "edinburgh",
   "bristol", "liverpool", "united kingdom", "uk", "england", "scotland",
   "wales", "great britain"]

def APAC_KEYWORDS : List String :=
  ["australia", "sydney", "melbourne", "brisbane", "perth", "adelaide",
   "new zealand", "auckland", "singapore", "india", "mumbai", "bangalore",
   "bengaluru", "delhi", "hyderabad", "pune", "chennai", "japan", "tokyo",
   "osaka", "south korea", "seoul", "china", "beijing", "shanghai",
   "guangzhou", "shenzhen", "hong kong", "taiwan", "taipei", "thailand",
   "bangkok", "vietnam", "ho chi minh", "hanoi", "indonesia", "jakarta",
   "malaysia", "kuala lumpur", "philippines", "manila", "apac", "asia pacific"]

def LATAM_KEYWORDS : List String :=
  ["brazil", "são paulo", "sao paulo", "rio de janeiro", "bogota", "bogotá",
   "colombia", "argentina", "buenos aires", "chile", "santiago", "peru",
   "lima", "mexico", "ciudad de mexico", "venezuela", "ecuador", "quito",
   "costa rica", "uruguay", "montevideo", "panama", "latin america", "latam",
   "south america"]

/-- `infer_geo` of src/scrapers/normalizer.py. -/
def infer_geo (location_raw : Option String) : String :=
  match location_raw with
  | none => "OTHER"
  | some lr =>
    let loc := pyLower lr
    if anyKw REMOTE_KEYWORDS loc then "REMOTE"
    else if anyKw UK_KEYWORDS loc then "UK"
    else if anyKw EU_COUNTRIES loc || anyKw EU_CITIES loc then "EU"
    else if anyKw US_STATES loc || anyKw US_CITIES loc then "US"
    else if anyKw APAC_KEYWORDS loc then "APAC"
    else if anyKw LATAM_KEYWORDS loc then "LATAM"
    else "OTHER"

-- ── Date normalisation (src/scrapers/normalizer.py:377-394) ─────────────────

/-- A Python `datetime.date` value. -/
structure PyDate where
  year : Int
  month : Nat
  day : Nat
deriving DecidableEq

def isLeap (y : Int) : Bool :=
  y % 4 == 0 && (y % 100 != 0 || y % 400 == 0)

def daysInMonth (y : Int) (m : Nat) : Nat :=
  if m = 2 then (if isLeap y then 29 else 28)
  else if m = 4 ∨ m = 6 ∨ m = 9 ∨ m = 11 then 30
  else 31

/-- Civil date of a day count since the Unix epoch (the date part of
`datetime.fromtimestamp(..., tz=timezone.utc)`). -/
def civilFromDays (z0 : Int) : PyDate :=
  let z := z0 + 719468
  let era : Int := Int.fdiv z 146097
  let doe : Int := z - era * 146097
  let yoe : Int :=
    Int.fdiv (doe - Int.fdiv doe 1460 + Int.fdiv doe 36524 - Int.fdiv doe 146096) 365
  let y : Int := yoe + era * 400
  let doy : Int := doe - (365 * yoe + Int.fdiv yoe 4 - Int.fdiv yoe 100)
  let mp : Int := Int.fdiv (5 * doy + 2) 153
  let d : Int := doy - Int.fdiv (153 * mp + 2) 5 + 1
  let m : Int := mp + (if mp < 10 then 3 else -9)
  { year := y + (if m ≤ 2 then 1 else 0), month := m.toNat, day := d.toNat }

/-- Earliest UTC second representable by `datetime` (0001-01-01T00:00:00). -/
def MIN_TIMESTAMP : Int := -62135596800

/-- Latest whole UTC second representable by `datetime` (9999-12-31T23:59:59). -/
def MAX_TIMESTAMP : Int := 253402300799

-- ── A model of `datetime.strptime` for the four formats the source tries ────

/-- Fields produced by `strptime`, with the CPython defaults (1900-01-01). -/
structure StrpAcc where
  y : Nat := 1900
  m : Nat := 1
  d : Nat := 1
deriving DecidableEq

def digitVal (c : Char) : Nat := c.toNat - 48

/-- `%Y`: exactly four digits. -/
def readY : List Char → Option (Nat × List Char)
  | a :: b :: c :: d :: rest =>
    if a.isDigit && b.isDigit && c.isDigit && d.isDigit then
      some (((digitVal a * 10 + digitVal b) * 10 + digitVal c) * 10 + digitVal d, rest)
    else none
  | _ => none

/-- `%m`: the regex `1[0-2]|0[1-9]|[1-9]`. -/
def readMonth : List Char → Option (Nat × List Char)
  | a :: b :: rest =>
    if a == '1' && ('0' ≤ b && b ≤ '2') then some (10 + digitVal b, rest)
    else if a == '0' && ('1' ≤ b && b ≤ '9') then some (digitVal b, rest)
    else if '1' ≤ a && a ≤ '9' then some (digitVal a, b :: rest)
    else none
  | [a] => if '1' ≤ a && a ≤ '9' then some (digitVal a, []) else none
  | [] => none

/-- `%d`: the regex `3[01]|[12]\d|0[1-9]|[1-9]`. -/
def readDay : List Char → Option (Nat × List Char)
  | a :: b :: rest =>
    if a == '3' && ('0' ≤ b && b ≤ '1') then some (30 + digitVal b, rest)
    else if ('1' ≤ a && a ≤ '2') && b.isDigit then some (digitVal a * 10 + digitVal b, rest)
    else if a == '0' && ('1' ≤ b && b ≤ '9') then some (digitVal b, rest)
    else if '1' ≤ a && a ≤ '9' then some (digitVal a, b :: rest)
    else none
  | [a] => if '1' ≤ a && a ≤ '9' then some (digitVal a, []) else none
  | [] => none

/-- `%H`: the regex `2[0-3]|[01]\d|\d`. -/
def readHour : List Char → Option (List Char)
  | a :: b :: rest =>
    if a == '2' && ('0' ≤ b && b ≤ '3') then some rest
    else if ('0' ≤ a && a ≤ '1') && b.isDigit then some rest
    else if a.isDigit then some (b :: rest)
    else none
  | [a] => if a.isDigit then some [] else none
  | [] => none

/-- `%M` and `%S`: the regex `[0-5]\d|\d`. -/
def readMinSec : List Char → Option (List Char)
  | a :: b :: rest =>
    if ('0' ≤ a && a ≤ '5') && b.isDigit then some rest
    else if a.isDigit then some (b :: rest)
    else none
  | [a] => if a.isDigit then some [] else none
  | [] => none

/-- Two digits. -/
def read2d : List Char → Option (List Char)
  | a :: b :: rest => if a.isDigit && b.isDigit then some rest else none
  | _ => none

/-- `%z`: `Z` or a `±HH[:]MM` offset (with an optional seconds part). -/
def readZone : List Char → Option (List Char)
  | 'Z' :: rest => some rest
  | c :: rest =>
    if c == '+' || c == '-' then
      match read2d rest with
      | none => none
      | some r1 =>
        let r2? := match r1 with
          | ':' :: rr => read2d rr
          | _ => read2d r1
        match r2? with
        | none => none
        | some r2 =>
          match (match r2 with | ':' :: rr => read2d rr | _ => read2d r2) with
          | some r3 => some r3
          | none => some r2
    else none
  | [] => none

/-- Run a (possibly truncated) format string against the input.  Mirrors
`re.match` + the "unconverted data remains" check of `_strptime`: literal
characters match case-insensitively, a trailing stray `%` fails. -/
def runFmt : List Char → List Char → StrpAcc → Option StrpAcc
  | [], inp, st => if inp.isEmpty then some st else none
  | ['%'], _, _ => none
  | '%' :: c :: fs, inp, st =>
    if c == 'Y' then
      match readY inp with
      | some (v, rest) => runFmt fs rest { st with y := v }
      | none => none
    else if c == 'm' then
      match readMonth inp with
      | some (v, rest) => runFmt fs rest { st with m := v }
      | none => none
    else if c == 'd' then
      match readDay inp with
      | some (v, rest) => runFmt fs rest { st with d := v }
      | none => none
    else if c == 'H' then
      match readHour inp with
      | some rest => runFmt fs rest st
      | none => none
    else if c == 'M' then
      match readMinSec inp with
      | some rest => runFmt fs rest st
      | none => none
    else if c == 'S' then
      match readMinSec inp with
      | some rest => runFmt fs rest st
      | none => none
    else if c == 'z' then
      match readZone inp with
      | some rest => runFmt fs rest st
      | none => none
    else none
  | c :: fs, d :: inp, st =>
    if c.toLower == d.toLower then runFmt fs inp st else none
  | _ :: _, [], _ => none

def DATE_FORMATS : List String :=
  ["%Y-%m-%dT%H:%M:%SZ", "%Y-%m-%dT%H:%M:%S%z", "%Y-%m-%d", "%Y/%m/%d"]

/-- Try each format in order against `s`, truncating the format to `len(s)`
exactly as `fmt[:len(raw[:19])]` does; an out-of-range calendar date raises
`ValueError` inside `datetime`, which the source catches and skips. -/
def tryFormats : List String → String → Option PyDate
  | [], _ => none
  | f :: fs, s =>
    match runFmt (pyTake f s.length).toList s.toList {} with
    | some st =>
      if 1 ≤ st.y ∧ st.d ≤ daysInMonth (st.y : Int) st.m then
        some ⟨(st.y : Int), st.m, st.d⟩
      else tryFormats fs s
    | none => tryFormats fs s

/-- The string branch of `normalize_date`: `raw[:19]` against the four
formats, `None` when all fail. -/
def parseDateStr (raw : String) : Option PyDate :=
  tryFormats DATE_FORMATS (pyTake raw 19)

/-- The values `normalize_date` can receive (`posted_date` from a vendor
payload or the LLM reply): `None`, a `date`/`datetime` instance, a number,
a string, or anything else. -/
inductive RawDate where
  | noneV : RawDate
  | dateV : PyDate → RawDate
  | datetimeV : PyDate → RawDate
  | intV : Int → RawDate
  | strV : String → RawDate
  | otherV : RawDate
deriving DecidableEq

/-- `normalize_date` of src/scrapers/normalizer.py.  `Except.error` models
an uncaught Python exception: `datetime.fromtimestamp` raises
`ValueError`/`OverflowError` when the (milliseconds-adjusted) epoch value
falls outside the range `datetime` can represent, and nothing in the
function catches it.  Numeric input is modelled at integer precision. -/
def normalize_date : RawDate → Except Unit (Option PyDate)
  | .noneV => .ok none
  | .dateV d => .ok (some d)
  | .datetimeV d => .ok (some d)
  | .intV n =>
    let sec : Int := if n > 10 ^ 12 then Int.fdiv n 1000 else n
    if sec < MIN_TIMESTAMP ∨ sec > MAX_TIMESTAMP then .error ()
    else .ok (some (civilFromDays (Int.fdiv sec 86400)))
  | .strV s => .ok (parseDateStr s)
  | .otherV => .ok none

-- ── Canonical job records (src/scrapers/normalizer.py:364-374) ──────────────

/-- `NormalizedJob` of src/scrapers/normalizer.py. -/
structure NormalizedJob where
  source_id : String
  source : String
  title : String
  company_name : String
  location_raw : Option String
  url : String
  posted_date : Option PyDate
  geo_region : String
  seniority : String
deriving DecidableEq

-- ── LLM page extraction (src/scrapers/llm_career.py) ────────────────────────

/-- One element of the `"jobs"` array of the LLM JSON reply.  The prompt
fixes each field to a string or `null`; a missing key reads as `null`
(`item.get(...)`). -/
structure LlmItem where
  title : Option String
  location : Option String
  url : Option String
  posted_date : Option String
deriving DecidableEq

/-- A fetched HTTP response: `resp.content` (raw body bytes, modelled as a
string — only its hash is ever taken) and `resp.text`. -/
structure Page where
  content : String
  text : String
deriving DecidableEq

/-- How a page fetch can fail: `status code` is `httpx.HTTPStatusError`
raised by `raise_for_status`, `transport` is any `httpx.RequestError`
(timeout, connection failure) raised by `http.get` itself. -/
inductive FetchErr where
  | status : Nat → FetchErr
  | transport : FetchErr
deriving DecidableEq

/-- The external collaborators of one extractor invocation: the HTTP
client, the html2text converter, the chat-completion service (`none`
models an invalid-JSON reply, which `_extract_page` turns into no items),
and the SHA-256 hex digest. -/
structure World where
  fetch : String → Except FetchErr Page
  h2t : String → String
  llm : String → String → Option (List LlmItem × Option String)
  sha256hex : String → String

def MAX_MARKDOWN_CHARS : Nat := 15000

def MAX_PAGES : Nat := 20

/-- The markdown truncation `markdown[:MAX_MARKDOWN_CHARS]`. -/
def truncMd (md : String) : String :=
  if md.length > MAX_MARKDOWN_CHARS then pyTake md MAX_MARKDOWN_CHARS else md

def SPA_SIGNALS : List String :=
  ["loading", "please wait", "enable javascript", "requires javascript",
   "javascript is required", "loading...", "please enable"]

/-- `_detect_spa` of src/scrapers/llm_career.py. -/
def detect_spa (html markdown : String) : Bool :=
  if (pyStrip markdown).length < 100 then true
  else
    SPA_SIGNALS.any (fun sig => strIn sig (pyLower html)) &&
      (pyStrip markdown).length < 300

/-- The netloc part: characters of the rest of the URL up to `/`, `?`
or `#`. -/
def netlocOf (rest : String) : String :=
  String.mk (rest.toList.takeWhile (fun c => c ≠ '/' ∧ c ≠ '?' ∧ c ≠ '#'))

/-- `f"{parsed.scheme}://{parsed.netloc}"` of `urlparse(career_url)`,
modelled for scheme-qualified URLs (a URL with no `://` has empty scheme
and netloc). -/
def base_of (url : String) : String :=
  match splitFirstOn "://".toList url.toList with
  | some (s, rest) => String.mk s ++ "://" ++ netlocOf (String.mk rest)
  | none => "://"

/-- `(x or "").strip() or None`. -/
def stripOrNone (s : Option String) : Option String :=
  let t := pyStrip (s.getD "")
  if t = "" then none else some t

/-- `_extract_page` of src/scrapers/llm_career.py, after the completion
call: JSON decoding failure yields no items and no next page; a returned
next-page URL is stripped, `None`-ed when empty and resolved against
`base_url` when relative. -/
def extract_page (w : World) (markdown company_name page_url base_url : String) :
    List LlmItem × Option String :=
  match w.llm markdown page_url with
  | none => ([], none)
  | some (items, next0) =>
    let nu := stripOrNone next0
    let nu := match nu with
      | some u => if startsWithPy u "/" then some (base_url ++ u) else some u
      | none => none
    (items, nu)

/-- The body of the `for item in items` loop of `_items_to_jobs`: `none`
models `continue`. -/
def item_to_job (sha : String → String) (company_name base_url : String)
    (item : LlmItem) : Option NormalizedJob :=
  let title := pyStrip (item.title.getD "")
  let url0 := pyStrip (item.url.getD "")
  if title = "" ∨ url0 = "" then none
  else
    let url := if startsWithPy url0 "/" then base_url ++ url0 else url0
    if ¬ is_pm_role title then none
    else
      let location_raw := stripOrNone item.location
      some {
        source_id := pyTake (sha url) 32
        source := "custom"
        title := title
        company_name := company_name
        location_raw := location_raw
        url := url
        posted_date := match item.posted_date with
          | none => none
          | some s => parseDateStr s
        geo_region := infer_geo location_raw
        seniority := infer_seniority title }

/-- `_items_to_jobs` of src/scrapers/llm_career.py. -/
def items_to_jobs (sha : String → String) (items : List LlmItem)
    (company_name base_url : String) : List NormalizedJob :=
  items.filterMap (item_to_job sha company_name base_url)

/-- What one `fetch_custom` invocation produces: the accumulated jobs, the
first-page fingerprint, the status string, plus two instrumentation
fields — how many chat-completion calls were made and which page URLs
were processed (first page included). -/
structure ExtractResult where
  jobs : List NormalizedJob
  page_hash : String
  status : String
  llm_calls : Nat
  pages : List String
deriving DecidableEq

/-- The `while next_url and page_num < MAX_PAGES and next_url not in
visited` pagination loop of `fetch_custom`.  `fuel = MAX_PAGES - page_num`
(initially `MAX_PAGES - 1` since the first page is page 1), so `fuel = 0`
is exactly the page-cap exit.  An `httpx.HTTPStatusError` on a pagination
page is caught and breaks the loop; any other fetch failure propagates. -/
def pagLoop (w : World) (company_name base_url : String) :
    Nat → Option String → List NormalizedJob → List String → Nat → List String →
    Except FetchErr (List NormalizedJob × Nat × List String)
  | 0, _, jobs, _, lc, pages => .ok (jobs, lc, pages)
  | _ + 1, none, jobs, _, lc, pages => .ok (jobs, lc, pages)
  | fuel + 1, some nu, jobs, visited, lc, pages =>
    if nu ∈ visited then .ok (jobs, lc, pages)
    else
      match w.fetch nu with
      | .error (.status _) => .ok (jobs, lc, pages ++ [nu])
      | .error .transport => .error .transport
      | .ok resp =>
        let md := truncMd (w.h2t resp.text)
        if (pyStrip md).length < 100 then .ok (jobs, lc, pages ++ [nu])
        else
          let (items, nxt) := extract_page w md company_name nu base_url
          pagLoop w company_name base_url fuel nxt
            (jobs ++ items_to_jobs w.sha256hex items company_name base_url)
            (visited ++ [nu]) (lc + 1) (pages ++ [nu])

/-- Python truthiness of the optional `page_hash` argument. -/
def pyTruthy : Option String → Bool
  | none => false
  | some s => s ≠ ""

/-- `fetch_custom` of src/scrapers/llm_career.py.  A first-page fetch
failure propagates to the caller unmodified; the fingerprint short-circuit
and SPA detection answer before any completion call. -/
def fetch_custom (w : World) (career_url company_name : String)
    (page_hash : Option String) : Except FetchErr ExtractResult :=
  let base_url := base_of career_url
  match w.fetch career_url with
  | .error e => .error e
  | .ok resp =>
    let new_hash := w.sha256hex resp.content
    if pyTruthy page_hash && (some new_hash == page_hash) then
      .ok ⟨[], new_hash, "UNCHANGED", 0, [career_url]⟩
    else
      let markdown := truncMd (w.h2t resp.text)
      if detect_spa resp.text markdown then
        .ok ⟨[], new_hash, "SPA_DETECTED", 0, [career_url]⟩
      else
        let (items, next_url) := extract_page w markdown company_name career_url base_url
        let all_jobs := items_to_jobs w.sha256hex items company_name base_url
        match pagLoop w company_name base_url (MAX_PAGES - 1) next_url all_jobs
            [career_url] 1 [career_url] with
        | .error e => .error e
        | .ok (jobs, lc, pages) => .ok ⟨jobs, new_hash, "OK", lc, pages⟩

-- ── Reconciliation: upsert (src/run_scraper.py:42-85, src/api/models.py) ────

/-- A row of the `jobs` table (src/api/models.py).  `search_vector` is
modelled as the text the source feeds to `to_tsvector` (`title + " " +
company_name`); timestamps are integers. -/
structure JobRow where
  company_id : Option Nat
  company_name : String
  source : String
  source_id : String
  title : String
  location_raw : Option String
  geo_region : String
  seniority : String
  url : String
  posted_date : Option PyDate
  first_seen : Int
  last_seen : Int
  is_active : Bool
  search_vector : String
deriving DecidableEq

/-- The text the search index is built from:
`to_tsvector('english', title + " " + company_name)`. -/
def search_vec (title company_name : String) : String :=
  title ++ " " ++ company_name

/-- Does the row carry the job's reconciliation key `(source, source_id)`
(the `uq_job_source` unique constraint)? -/
def sameKey (j : NormalizedJob) (r : JobRow) : Bool :=
  r.source == j.source && r.source_id == j.source_id

/-- One `INSERT ... ON CONFLICT ON CONSTRAINT uq_job_source DO UPDATE`
statement: a row with the key already present is updated in place
(`last_seen`, `is_active`, `search_vector` only), otherwise the fresh row
is inserted. -/
def upsert_one (now : Int) (company_id : Option Nat) (j : NormalizedJob)
    (t : List JobRow) : List JobRow :=
  if t.any (sameKey j) then
    t.map (fun r =>
      if sameKey j r then
        { r with last_seen := now, is_active := true,
                 search_vector := search_vec j.title j.company_name }
      else r)
  else
    t ++ [{ company_id := company_id
            company_name := j.company_name
            source := j.source
            source_id := j.source_id
            title := j.title
            location_raw := j.location_raw
            geo_region := j.geo_region
            seniority := j.seniority
            url := j.url
            posted_date := j.posted_date
            first_seen := now
            last_seen := now
            is_active := true
            search_vector := search_vec j.title j.company_name }]

/-- `upsert_jobs` of src/run_scraper.py: jobs with a falsy (empty) apply
URL are skipped, every other job is upserted and counted. -/
def upsert_jobs (t : List JobRow) (jobs : List NormalizedJob)
    (company_id : Option Nat) (now : Int) : List JobRow × Nat :=
  jobs.foldl
    (fun acc j =>
      if j.url = "" then acc else (upsert_one now company_id j acc.1, acc.2 + 1))
    (t, 0)

/-- The reconciliation key of a row. -/
def rowKey (r : JobRow) : String × String := (r.source, r.source_id)

/-- The reconciliation keys of a table, in row order. -/
def keysOf (t : List JobRow) : List (String × String) := t.map rowKey

/-- Key paired with `first_seen`, for stating that reconciliation never
touches `first_seen`. -/
def keyFirstSeen (t : List JobRow) : List ((String × String) × Int) :=
  t.map (fun r => (rowKey r, r.first_seen))

-- ── The per-company orchestrator task (src/run_scraper.py:90-166) ───────────

def DISCOVERY_COOLDOWN_DAYS : Int := 30

/-- The fields of a `Company` row (src/api/models.py) that
`scrape_company` reads or writes. -/
structure CompanyState where
  id : Nat
  name : String
  career_url : Option String
  career_url_source : String
  page_hash : Option String
  scrape_status : Option String
  last_scraped : Option Int
  last_discovery_attempt : Option Int
deriving DecidableEq

/-- `not company.last_discovery_attempt or company.last_discovery_attempt
< now - timedelta(days=DISCOVERY_COOLDOWN_DAYS)`. -/
def can_rediscover (c : CompanyState) (now : Int) : Bool :=
  match c.last_discovery_attempt with
  | none => true
  | some t => t < now - DISCOVERY_COOLDOWN_DAYS

/-- `scrape_company` of src/run_scraper.py, returning the updated company
row, the updated jobs table, and the `(job_count, status_string)` pair the
task reports.  The branches mirror the source exactly: the success path
upserts and stamps status/fingerprint/timestamp (an `UNCHANGED` fetch
keeps the previous status); `httpx.HTTPStatusError` sets `HTTP_ERROR`,
stamps `last_scraped`, and on 404/410 resets the URL only for `auto`
provenance past the rediscovery cooldown; every other exception (a
transport error — or a missing career URL, where `urlparse(None)` raises
`TypeError`) reaches the generic handler, which touches nothing. -/
def scrape_company (w : World) (table : List JobRow) (c : CompanyState)
    (now : Int) : CompanyState × List JobRow × Nat × String :=
  match c.career_url with
  | none => (c, table, 0, "ERROR")
  | some cu =>
    match fetch_custom w cu c.name c.page_hash with
    | .ok out =>
      let res := upsert_jobs table out.jobs (some c.id) now
      let status' :=
        if out.status = "SPA_DETECTED" then some "SPA_DETECTED"
        else if out.status = "UNCHANGED" then c.scrape_status
        else if res.2 > 0 then some "OK"
        else some "EMPTY"
      ({ c with scrape_status := status', last_scraped := some now,
                page_hash := some out.page_hash },
       res.1, res.2, out.status)
    | .error (.status code) =>
      if code = 404 ∨ code = 410 then
        if c.career_url_source = "auto" then
          if can_rediscover c now then
            ({ c with scrape_status := some "HTTP_ERROR", career_url := none,
                      page_hash := none, last_discovery_attempt := some now,
                      last_scraped := some now },
             table, 0, "HTTP_ERROR")
          else
            ({ c with scrape_status := some "HTTP_ERROR", last_scraped := some now },
             table, 0, "HTTP_ERROR")
        else
          ({ c with scrape_status := some "HTTP_ERROR", last_scraped := some now },
           table, 0, "HTTP_ERROR")
      else
        ({ c with scrape_status := some "HTTP_ERROR", last_scraped := some now },
         table, 0, "HTTP_ERROR")
    | .error .transport => (c, table, 0, "ERROR")

-- ── ATS router (src/scrapers/ats_router.py) ─────────────────────────────────

/-- Case-insensitive `u.startswith(p)` (the router regexes carry `re.I`). -/
def ciStarts (p u : String) : Bool :=
  startsWithPy (pyLower u) p

/-- Match `https?://{host}/` at the start of the URL and return what
follows. -/
def afterScheme (host : String) (u : String) : Option String :=
  if ciStarts ("https://" ++ host ++ "/") u then
    some (pyDrop u ("https://" ++ host ++ "/").length)
  else if ciStarts ("http://" ++ host ++ "/") u then
    some (pyDrop u ("http://" ++ host ++ "/").length)
  else none

/-- The `([^/?#]+)` slug capture. -/
def slugOf (rest : String) : Option String :=
  let s := String.mk (rest.toList.takeWhile (fun c => c ≠ '/' ∧ c ≠ '?' ∧ c ≠ '#'))
  if s = "" then none else some s

/-- Match one `https?://host/slug`-shaped router pattern. -/
def matchHostPattern (hosts : List String) (u : String) : Option String :=
  match hosts with
  | [] => none
  | h :: hs =>
    match afterScheme h u with
    | some rest => slugOf rest
    | none => matchHostPattern hs u

/-- The TeamTailor pattern `https?://([^.]+)\.teamtailor\.com`. -/
def matchTeamtailor (u : String) : Option String :=
  let rest :=
    if ciStarts "https://" u then some (pyDrop u 8)
    else if ciStarts "http://" u then some (pyDrop u 7)
    else none
  match rest with
  | none => none
  | some r =>
    let slug := String.mk (r.toList.takeWhile (fun c => c ≠ '.'))
    if slug = "" then none
    else if ciStarts ".teamtailor.com" (pyDrop r slug.length) then some slug
    else none

/-- `detect_ats` of src/scrapers/ats_router.py: the ordered pattern list. -/
def detect_ats (career_url : String) : Option (String × String) :=
  match matchHostPattern ["boards.greenhouse.io", "boards.eu.greenhouse.io"] career_url with
  | some slug => some ("greenhouse", slug)
  | none =>
  match matchHostPattern ["jobs.lever.co"] career_url with
  | some slug => some ("lever", slug)
  | none =>
  match matchHostPattern ["jobs.ashbyhq.com", "jobs.ashby.com"] career_url with
  | some slug => some ("ashby", slug)
  | none =>
  match matchHostPattern ["jobs.smartrecruiters.com", "careers.smartrecruiters.com"] career_url with
  | some slug => some ("smartrecruiters", slug)
  | none =>
  match matchTeamtailor career_url with
  | some slug => some ("teamtailor", slug)
  | none => none

-- ── Derived helpers for stating and proving the claims ──────────────────────

/-- The table component of `upsert_jobs` alone (proved equal to
`(upsert_jobs ...).1` below). -/
def apply_jobs (t : List JobRow) (jobs : List NormalizedJob)
    (company_id : Option Nat) (now : Int) : List JobRow :=
  jobs.foldl (fun acc j => if j.url = "" then acc else upsert_one now company_id j acc) t

/-- How senior each band is (LEADERSHIP highest, INTERN lowest). -/
def seniorityRank : String → Nat
  | "LEADERSHIP" => 6
  | "STAFF" => 5
  | "LEAD" => 4
  | "SENIOR" => 3
  | "MID" => 2
  | "JUNIOR" => 1
  | _ => 0

/-- The keyword list the cascade consults for a band. -/
def bandKw (b : String) : List String :=
  if b = "LEADERSHIP" then LEADERSHIP_KW
  else if b = "STAFF" then STAFF_KW
  else if b = "LEAD" then LEAD_KW
  else if b = "SENIOR" then SENIOR_KW
  else if b = "JUNIOR" then JUNIOR_KW
  else if b = "INTERN" then INTERN_KW
  else []

-- ── Concrete fixtures used by witnesses and counterexamples ─────────────────

def urlA : String := "https://x.com/a"

def urlB : String := "https://x.com/b"

/-- A page body long enough to pass both 100-character floors. -/
def longText : String := String.mk (List.replicate 120 'a')

/-- A stand-in hex digest: tags the hashed bytes (injective, never ""). -/
def shaTag (s : String) : String := "hash:" ++ s

/-- Two pages that point at each other: A → B → A. -/
def wCycle : World where
  fetch := fun u =>
    if u = urlA then .ok ⟨"bodyA", longText⟩
    else if u = urlB then .ok ⟨"bodyB", longText⟩
    else .error .transport
  h2t := fun s => s
  llm := fun _ pu =>
    if pu = urlA then some ([], some urlB)
    else if pu = urlB then some ([], some urlA)
    else none
  sha256hex := shaTag

/-- One PM listing with a relative link, as the LLM returns it. -/
def itemPM : LlmItem :=
  { title := some "Product Manager", location := none,
    url := some "/pm1", posted_date := none }

/-- The job `itemPM` normalises to for company "X" under `shaTag`. -/
def jobPM : NormalizedJob :=
  { source_id := "hash:https://x.com/pm1", source := "custom",
    title := "Product Manager", company_name := "X", location_raw := none,
    url := "https://x.com/pm1", posted_date := none,
    geo_region := "OTHER", seniority := "MID" }

/-- First page lists one PM job and links to page B; page B answers 500. -/
def wBreak : World where
  fetch := fun u =>
    if u = urlA then .ok ⟨"bodyA", longText⟩ else .error (.status 500)
  h2t := fun s => s
  llm := fun _ pu => if pu = urlA then some ([itemPM], some urlB) else none
  sha256hex := shaTag

/-- First page links to page B; fetching B fails at transport level. -/
def wPage2T : World where
  fetch := fun u =>
    if u = urlA then .ok ⟨"bodyA", longText⟩ else .error .transport
  h2t := fun s => s
  llm := fun _ pu => if pu = urlA then some ([], some urlB) else none
  sha256hex := shaTag

/-- A world whose only page always fetches identically. -/
def wUnch : World where
  fetch := fun _ => .ok ⟨"body", "txt"⟩
  h2t := fun s => s
  llm := fun _ _ => none
  sha256hex := shaTag

/-- Every fetch answers HTTP 410 Gone. -/
def w410 : World where
  fetch := fun _ => .error (.status 410)
  h2t := fun s => s
  llm := fun _ _ => none
  sha256hex := shaTag

/-- Every fetch fails at transport level (timeout / connection error). -/
def wErrT : World where
  fetch := fun _ => .error .transport
  h2t := fun s => s
  llm := fun _ _ => none
  sha256hex := shaTag

/-- Every fetch yields a near-empty page (a client-rendered shell). -/
def wSpa : World where
  fetch := fun _ => .ok ⟨"b", "short"⟩
  h2t := fun s => s
  llm := fun _ _ => none
  sha256hex := shaTag

/-- A manually-curated company. -/
def cManual : CompanyState :=
  { id := 1, name := "Acme", career_url := some "https://acme.example/careers",
    career_url_source := "manual", page_hash := none, scrape_status := none,
    last_scraped := none, last_discovery_attempt := none }

/-- A curated-list company whose career URL is a Lever board. -/
def cLever : CompanyState :=
  { id := 2, name := "Acme", career_url := some "https://jobs.lever.co/acme",
    career_url_source := "yaml", page_hash := none, scrape_status := none,
    last_scraped := none, last_discovery_attempt := none }

/-- An auto-provenance company that has never been scraped. -/
def cAuto : CompanyState :=
  { id := 3, name := "Acme", career_url := some urlA,
    career_url_source := "auto", page_hash := none, scrape_status := none,
    last_scraped := none, last_discovery_attempt := none }

/-- A pre-existing row of the jobs table. -/
def row0 : JobRow :=
  { company_id := none, company_name := "Acme", source := "custom",
    source_id := "s0", title := "PM", location_raw := none,
    geo_region := "OTHER", seniority := "MID", url := "https://a/0",
    posted_date := none, first_seen := 0, last_seen := 0, is_active := true,
    search_vector := "PM Acme" }

/-- An extracted job that updates `row0` (same reconciliation key). -/
def jobUpd : NormalizedJob :=
  { source_id := "s0", source := "custom", title := "Product Manager",
    company_name := "Acme", location_raw := none, url := "https://a/1",
    posted_date := none, geo_region := "OTHER", seniority := "MID" }

/-- An extracted job with a fresh reconciliation key. -/
def jobNew : NormalizedJob :=
  { source_id := "s1", source := "custom", title := "Senior Product Manager",
    company_name := "Acme", location_raw := none, url := "https://a/2",
    posted_date := none, geo_region := "OTHER", seniority := "SENIOR" }

/-- An extracted job with an empty apply URL (must be skipped). -/
def jobNoUrl : NormalizedJob :=
  { source_id := "s2", source := "custom", title := "Product Manager",
    company_name := "Acme", location_raw := none, url := "",
    posted_date := none, geo_region := "OTHER", seniority := "MID" }

/-- The row produced by the `DO UPDATE` arm of the upsert for a matching
row `r`: `last_seen`, `is_active` and the search index are rewritten,
everything else — `first_seen` included — is kept. -/
def updatedRow (r : JobRow) (j : NormalizedJob) (now : Int) : JobRow :=
  { r with last_seen := now, is_active := true,
           search_vector := search_vec j.title j.company_name }

/-- How many rows of the table carry the key `k`. -/
def countKey (t : List JobRow) (k : String × String) : Nat :=
  ((keysOf t).filter (fun k2 => k2 == k)).length

-- ════════════════════════════════════════════════════════════════════════════
-- Claims
-- ════════════════════════════════════════════════════════════════════════════

/-- C8 (counterexample): the cascade does NOT always give the most senior
matching band: "VP Product Intern" carries both a LEADERSHIP keyword
("vp") and an INTERN keyword ("intern"), INTERN is checked first, and the
strictly less senior INTERN wins. -/
theorem C8_counterexample_intern_beats_leadership :
    infer_seniority "VP Product Intern" = "INTERN" ∧
    anyKw LEADERSHIP_KW (pyLower "VP Product Intern") = true ∧
    anyKw INTERN_KW (pyLower "VP Product Intern") = true ∧
    seniorityRank "INTERN" < seniorityRank "LEADERSHIP" := by
  exact ⟨by decide, by decide, by decide, by decide⟩

/-- C8 (amended): `infer_seniority` maps every title to exactly one of the
seven bands by the ordered cascade INTERN, LEADERSHIP, STAFF, LEAD,
SENIOR, JUNIOR, default MID; INTERN is checked first, and among the
remaining bands the most senior matching one wins; in particular
"Senior Staff Product Manager" resolves to STAFF, not SENIOR. -/
theorem C8_seniority_cascade :
    ∀ (title band : String),
      infer_seniority title ∈
        ["INTERN", "LEADERSHIP", "STAFF", "LEAD", "SENIOR", "JUNIOR", "MID"] ∧
      ((anyKw INTERN_KW (pyLower title) = false ∧
        anyKw LEADERSHIP_KW (pyLower title) = false ∧
        anyKw STAFF_KW (pyLower title) = false ∧
        anyKw LEAD_KW (pyLower title) = false ∧
        anyKw SENIOR_KW (pyLower title) = false ∧
        anyKw JUNIOR_KW (pyLower title) = false) → infer_seniority title = "MID") ∧
      (anyKw INTERN_KW (pyLower title) = true → infer_seniority title = "INTERN") ∧
      (band ∈ ["LEADERSHIP", "STAFF", "LEAD", "SENIOR", "JUNIOR"] →
        anyKw INTERN_KW (pyLower title) = false →
        anyKw (bandKw band) (pyLower title) = true →
        seniorityRank band ≤ seniorityRank (infer_seniority title)) ∧
      infer_seniority "Senior Staff Product Manager" = "STAFF" := by
  intro title band
  refine ⟨?_, ?_, ?_, ?_, by decide⟩
  · simp only [infer_seniority]
    split_ifs <;> simp
  · rintro ⟨h1, h2, h3, h4, h5, h6⟩
    simp [infer_seniority, h1, h2, h3, h4, h5, h6]
  · intro hi
    simp [infer_seniority, hi]
  · intro hband hi hm
    fin_cases hband
    · have hm2 : anyKw LEADERSHIP_KW (pyLower title) = true := hm
      have hres : infer_seniority title = "LEADERSHIP" := by
        simp [infer_seniority, hi, hm2]
      rw [hres]
    · have hm2 : anyKw STAFF_KW (pyLower title) = true := hm
      by_cases hL : anyKw LEADERSHIP_KW (pyLower title) = true
      · have hres : infer_seniority title = "LEADERSHIP" := by
          simp [infer_seniority, hi, hL]
        rw [hres]; decide
      · have hres : infer_seniority title = "STAFF" := by
          simp [infer_seniority, hi, hL, hm2]
        rw [hres]
    · have hm2 : anyKw LEAD_KW (pyLower title) = true := hm
      by_cases hL : anyKw LEADERSHIP_KW (pyLower title) = true
      · have hres : infer_seniority title = "LEADERSHIP" := by
          simp [infer_seniority, hi, hL]
        rw [hres]; decide
      · by_cases hS : anyKw STAFF_KW (pyLower title) = true
        · have hres : infer_seniority title = "STAFF" := by
            simp [infer_seniority, hi, hL, hS]
          rw [hres]; decide
        · have hres : infer_seniority title = "LEAD" := by
            simp [infer_seniority, hi, hL, hS, hm2]
          rw [hres]
    · have hm2 : anyKw SENIOR_KW (pyLower title) = true := hm
      by_cases hL : anyKw LEADERSHIP_KW (pyLower title) = true
      · have hres : infer_seniority title = "LEADERSHIP" := by
          simp [infer_seniority, hi, hL]
        rw [hres]; decide
      · by_cases hS : anyKw STAFF_KW (pyLower title) = true
        · have hres : infer_seniority title = "STAFF" := by
            simp [infer_seniority, hi, hL, hS]
          rw [hres]; decide
        · by_cases hLd : anyKw LEAD_KW (pyLower title) = true
          · have hres : infer_seniority title = "LEAD" := by
              simp [infer_seniority, hi, hL, hS, hLd]
            rw [hres]; decide
          · have hres : infer_seniority title = "SENIOR" := by
              simp [infer_seniority, hi, hL, hS, hLd, hm2]
            rw [hres]
    · have hm2 : anyKw JUNIOR_KW (pyLower title) = true := hm
      by_cases hL : anyKw LEADERSHIP_KW (pyLower title) = true
      · have hres : infer_seniority title = "LEADERSHIP" := by
          simp [infer_seniority, hi, hL]
        rw [hres]; decide
      · by_cases hS : anyKw STAFF_KW (pyLower title) = true
        · have hres : infer_seniority title = "STAFF" := by
            simp [infer_seniority, hi, hL, hS]
          rw [hres]; decide
        · by_cases hLd : anyKw LEAD_KW (pyLower title) = true
          · have hres : infer_seniority title = "LEAD" := by
              simp [infer_seniority, hi, hL, hS, hLd]
            rw [hres]; decide
          · by_cases hSr : anyKw SENIOR_KW (pyLower title) = true
            · have hres : infer_seniority title = "SENIOR" := by
                simp [infer_seniority, hi, hL, hS, hLd, hSr]
              rw [hres]; decide
            · have hres : infer_seniority title = "JUNIOR" := by
                simp [infer_seniority, hi, hL, hS, hLd, hSr, hm2]
              rw [hres]

/-- C8 (witness): the amended cascade at concrete inputs: "Senior Staff
Product Manager" matches STAFF keywords, no INTERN keyword, and resolves
to a band at least as senior as STAFF. -/
theorem C8_seniority_cascade_witness :
    infer_seniority "Senior Staff Product Manager" ∈
      ["INTERN", "LEADERSHIP", "STAFF", "LEAD", "SENIOR", "JUNIOR", "MID"] ∧
    seniorityRank "STAFF" ≤
      seniorityRank (infer_seniority "Senior Staff Product Manager") ∧
    infer_seniority "Senior Staff Product Manager" = "STAFF" :=
  ⟨(C8_seniority_cascade "Senior Staff Product Manager" "STAFF").1,
   (C8_seniority_cascade "Senior Staff Product Manager" "STAFF").2.2.2.1
     (by decide) (by decide) (by decide),
   (C8_seniority_cascade "Senior Staff Product Manager" "STAFF").2.2.2.2⟩

/-- C9 (counterexample): `normalize_date` is not total — a numeric epoch
like 10^20 (milliseconds-adjusted to 10^17 seconds) lies outside the range
`datetime.fromtimestamp` accepts, and the uncaught exception escapes. -/
theorem C9_counterexample_epoch_overflow :
    normalize_date (.intV (10 ^ 20)) = .error () := by decide

/-- C9 (amended): `normalize_date` returns a date or absence for every
`None`, string, date/datetime, or other input and for every in-range
numeric epoch; the only inputs on which it raises are numeric epochs
whose (milliseconds-adjusted) value falls outside the representable
timestamp range.  Epoch seconds and milliseconds, plain dates in both
separators, and unparseable strings behave as specified. -/
theorem C9_normalize_date_total :
    (∀ raw : RawDate, normalize_date raw = .error () →
      ∃ n : Int, raw = .intV n ∧
        ((if n > 10 ^ 12 then Int.fdiv n 1000 else n) < MIN_TIMESTAMP ∨
         (if n > 10 ^ 12 then Int.fdiv n 1000 else n) > MAX_TIMESTAMP)) ∧
    (∀ s : String, normalize_date (.strV s) = .ok (parseDateStr s)) ∧
    normalize_date (.strV "2024-05-06") = .ok (some ⟨2024, 5, 6⟩) ∧
    normalize_date (.strV "2024/05/06") = .ok (some ⟨2024, 5, 6⟩) ∧
    normalize_date (.strV "not a date") = .ok none ∧
    normalize_date (.intV 1700000000) = .ok (some ⟨2023, 11, 14⟩) ∧
    normalize_date (.intV 1700000000000) = .ok (some ⟨2023, 11, 14⟩) ∧
    normalize_date .noneV = .ok none := by
  refine ⟨?_, fun s => rfl, by decide, by decide, by decide, by decide, by decide, rfl⟩
  intro raw h
  cases raw with
  | intV n =>
    refine ⟨n, rfl, ?_⟩
    by_cases hc : ((if n > 10 ^ 12 then Int.fdiv n 1000 else n) < MIN_TIMESTAMP ∨
        (if n > 10 ^ 12 then Int.fdiv n 1000 else n) > MAX_TIMESTAMP)
    · exact hc
    · exfalso
      simp only [normalize_date] at h
      rw [if_neg hc] at h
      exact Except.noConfusion h
  | noneV => simp [normalize_date] at h
  | dateV d => simp [normalize_date] at h
  | datetimeV d => simp [normalize_date] at h
  | strV s => simp [normalize_date] at h
  | otherV => simp [normalize_date] at h

/-- C9 (witness): the error characterisation applied at the concrete
overflowing input 10^20. -/
theorem C9_normalize_date_total_witness :
    ∃ n : Int, RawDate.intV (10 ^ 20) = .intV n ∧
      ((if n > 10 ^ 12 then Int.fdiv n 1000 else n) < MIN_TIMESTAMP ∨
       (if n > 10 ^ 12 then Int.fdiv n 1000 else n) > MAX_TIMESTAMP) :=
  C9_normalize_date_total.1 (.intV (10 ^ 20)) (by decide)

/-- C2: when a previous fingerprint is supplied and equals the hash of the
freshly fetched first-page body, `fetch_custom` returns zero jobs, the
same fingerprint, status UNCHANGED, and makes zero completion calls. -/
theorem C2_unchanged_short_circuit :
    ∀ (w : World) (career_url company_name p : String) (resp : Page),
      w.fetch career_url = .ok resp →
      p ≠ "" →
      w.sha256hex resp.content = p →
      fetch_custom w career_url company_name (some p) =
        .ok ⟨[], p, "UNCHANGED", 0, [career_url]⟩ := by
  intro w cu cn p resp hf hp hh
  simp only [fetch_custom, hf]
  rw [hh]
  simp [pyTruthy, hp]

/-- C2 (witness): the short-circuit on a concrete world whose page hashes
to the supplied fingerprint. -/
theorem C2_unchanged_short_circuit_witness :
    fetch_custom wUnch "https://x.com/jobs" "X" (some "hash:body") =
      .ok ⟨[], "hash:body", "UNCHANGED", 0, ["https://x.com/jobs"]⟩ :=
  C2_unchanged_short_circuit wUnch "https://x.com/jobs" "X" "hash:body"
    ⟨"body", "txt"⟩ rfl (by decide) rfl

/-- C4 (code bug exhibit): a company whose career URL is a recognisable
Lever board gets a shell-detected extraction, yet `scrape_company` merely
records the SPA_DETECTED status and reconciles nothing — `try_ats_fallback`
(src/scrapers/ats_router.py), whose own docstring says it is the
SPA_DETECTED fallback, is never invoked anywhere in the orchestrator. -/
theorem C4_no_ats_fallback_on_shell :
    detect_ats "https://jobs.lever.co/acme" = some ("lever", "acme") ∧
    scrape_company wSpa [] cLever 7 =
      ({ cLever with scrape_status := some "SPA_DETECTED",
                     last_scraped := some 7, page_hash := some "hash:b" },
       [], 0, "SPA_DETECTED") := by
  exact ⟨by decide, by decide⟩

/-- Helper: a first-page fetch failure propagates out of `fetch_custom`
unmodified (there is no try/except around the first `_fetch_page` call). -/
theorem fetch_custom_first_page_error (w : World) (cu cn : String)
    (ph : Option String) (e : FetchErr) (hf : w.fetch cu = .error e) :
    fetch_custom w cu cn ph = .error e := by
  simp only [fetch_custom, hf]

/-- C1: a company whose provenance is curated-list ("yaml") or manual
never has its career URL changed by `scrape_company` — under HTTP 404/410
the status becomes HTTP_ERROR with the URL untouched — and any change at
all implies auto provenance, an elapsed rediscovery cooldown, and the
reset to `None` with a stamped discovery attempt. -/
theorem C1_provenance_protection :
    ∀ (w : World) (table : List JobRow) (c : CompanyState) (now : Int),
      ((c.career_url_source = "yaml" ∨ c.career_url_source = "manual") →
        (scrape_company w table c now).1.career_url = c.career_url) ∧
      ((scrape_company w table c now).1.career_url ≠ c.career_url →
        c.career_url_source = "auto" ∧ can_rediscover c now = true ∧
        (scrape_company w table c now).1.career_url = none ∧
        (scrape_company w table c now).1.page_hash = none ∧
        (scrape_company w table c now).1.last_discovery_attempt = some now) ∧
      (∀ cu code, c.career_url = some cu →
        w.fetch cu = .error (.status code) → (code = 404 ∨ code = 410) →
        (c.career_url_source = "yaml" ∨ c.career_url_source = "manual") →
        (scrape_company w table c now).1.scrape_status = some "HTTP_ERROR" ∧
        (scrape_company w table c now).1.career_url = c.career_url) := by
  intro w table c now
  refine ⟨?_, ?_, ?_⟩
  · intro hsrc
    have hne : ¬ c.career_url_source = "auto" := by
      rcases hsrc with h | h <;> simp [h]
    rcases hcu : c.career_url with _ | cu
    · simp [scrape_company, hcu]
    · rcases hfc : fetch_custom w cu c.name c.page_hash with e | out
      · cases e with
        | status code =>
          simp only [scrape_company, hcu, hfc]
          by_cases h44 : code = 404 ∨ code = 410
          · rw [if_pos h44, if_neg hne]
          · rw [if_neg h44]
        | transport => simp [scrape_company, hcu, hfc]
      · simp [scrape_company, hcu, hfc]
  · intro hchanged
    rcases hcu : c.career_url with _ | cu
    · exact absurd (by simp [scrape_company, hcu]) (hcu ▸ hchanged)
    · rcases hfc : fetch_custom w cu c.name c.page_hash with e | out
      · cases e with
        | status code =>
          by_cases h44 : code = 404 ∨ code = 410
          · by_cases hauto : c.career_url_source = "auto"
            · by_cases hcool : can_rediscover c now = true
              · refine ⟨hauto, hcool, ?_, ?_, ?_⟩ <;>
                  simp [scrape_company, hcu, hfc, h44, hauto, hcool]
              · exact absurd
                  (by simp [scrape_company, hcu, hfc, h44, hauto, hcool])
                  (hcu ▸ hchanged)
            · exact absurd
                (by simp [scrape_company, hcu, hfc, h44, hauto])
                (hcu ▸ hchanged)
          · exact absurd
              (by simp [scrape_company, hcu, hfc, h44])
              (hcu ▸ hchanged)
        | transport =>
          exact absurd (by simp [scrape_company, hcu, hfc]) (hcu ▸ hchanged)
      · exact absurd (by simp [scrape_company, hcu, hfc]) (hcu ▸ hchanged)
  · intro cu code hcu hf h44 hsrc
    have hne : ¬ c.career_url_source = "auto" := by
      rcases hsrc with h | h <;> simp [h]
    have hfc := fetch_custom_first_page_error w cu c.name c.page_hash _ hf
    simp only [scrape_company, hcu, hfc]
    rw [if_pos h44, if_neg hne]
    exact ⟨rfl, rfl⟩

/-- C1 (witness): a manual-provenance company answered by HTTP 410 keeps
its URL and gets status HTTP_ERROR. -/
theorem C1_provenance_protection_witness :
    (scrape_company w410 [] cManual 7).1.career_url = cManual.career_url ∧
    (scrape_company w410 [] cManual 7).1.scrape_status = some "HTTP_ERROR" :=
  ⟨(C1_provenance_protection w410 [] cManual 7).1 (Or.inr rfl),
   ((C1_provenance_protection w410 [] cManual 7).2.2
      "https://acme.example/careers" 410 rfl rfl (Or.inr rfl) (Or.inr rfl)).1⟩

/-- C5 (counterexample): an error outcome that is not an
`httpx.HTTPStatusError` (here a transport failure) reaches the generic
`except Exception` handler, which updates neither status nor fingerprint
nor last-scrape — the claim says all outcomes update them.  The company
still has `last_scraped = None` afterwards, so it is selected again by the
very next run. -/
theorem C5_counterexample_error_updates_nothing :
    scrape_company wErrT [] cManual 9 = (cManual, [], 0, "ERROR") ∧
    cManual.last_scraped = none ∧ cManual.scrape_status = none :=
  ⟨by decide, rfl, rfl⟩

/-- C5 (amended): the success path (OK / EMPTY / UNCHANGED / SPA_DETECTED)
stamps status, fingerprint, and last-scrape (UNCHANGED keeps the previous
status, and the stored fingerprint is the returned one); an HTTP status
error stamps status HTTP_ERROR and last-scrape; a transport-level error
(or a missing URL) updates nothing at all and only reports "ERROR". -/
theorem C5_status_fingerprint_timestamp :
    ∀ (w : World) (table : List JobRow) (c : CompanyState) (now : Int)
      (cu : String), c.career_url = some cu →
      (∀ out, fetch_custom w cu c.name c.page_hash = .ok out →
        (scrape_company w table c now).1.last_scraped = some now ∧
        (scrape_company w table c now).1.page_hash = some out.page_hash ∧
        (scrape_company w table c now).1.scrape_status =
          (if out.status = "SPA_DETECTED" then some "SPA_DETECTED"
           else if out.status = "UNCHANGED" then c.scrape_status
           else if (upsert_jobs table out.jobs (some c.id) now).2 > 0 then some "OK"
           else some "EMPTY")) ∧
      (∀ code, fetch_custom w cu c.name c.page_hash = .error (.status code) →
        (scrape_company w table c now).1.last_scraped = some now ∧
        (scrape_company w table c now).1.scrape_status = some "HTTP_ERROR" ∧
        (scrape_company w table c now).2.2.2 = "HTTP_ERROR") ∧
      (fetch_custom w cu c.name c.page_hash = .error .transport →
        scrape_company w table c now = (c, table, 0, "ERROR")) := by
  intro w table c now cu hcu
  refine ⟨?_, ?_, ?_⟩
  · intro out hout
    simp [scrape_company, hcu, hout]
  · intro code hcode
    simp only [scrape_company, hcu, hcode]
    split_ifs <;> simp
  · intro htr
    simp only [scrape_company, hcu, htr]

/-- C5 (witness): the amended behaviour at concrete inputs — an HTTP 410
run stamps status and timestamp; a transport-failure run leaves the
company row untouched. -/
theorem C5_status_fingerprint_timestamp_witness :
    (scrape_company w410 [] cManual 7).1.last_scraped = some 7 ∧
    (scrape_company w410 [] cManual 7).1.scrape_status = some "HTTP_ERROR" ∧
    scrape_company wErrT [] cManual 9 = (cManual, [], 0, "ERROR") :=
  ⟨((C5_status_fingerprint_timestamp w410 [] cManual 7
      "https://acme.example/careers" rfl).2.1 410 (by decide)).1,
   ((C5_status_fingerprint_timestamp w410 [] cManual 7
      "https://acme.example/careers" rfl).2.1 410 (by decide)).2.1,
   (C5_status_fingerprint_timestamp wErrT [] cManual 9
      "https://acme.example/careers" rfl).2.2 (by decide)⟩

/-- Helper: the pagination loop only ever processes pairwise-distinct page
URLs (it follows a next-page URL only when it is outside the visited set)
and never processes more than `MAX_PAGES` pages, provided the pages
already processed are distinct, lie inside the visited set, and leave
enough head-room in the cap — as they do at the loop entry. -/
theorem pagLoop_pages_bound :
    ∀ (fuel : Nat) (w : World) (cn b : String) (next : Option String)
      (jobs : List NormalizedJob) (visited : List String) (lc : Nat)
      (pages : List String) (res : List NormalizedJob × Nat × List String),
      pages.Nodup → (∀ p ∈ pages, p ∈ visited) →
      pages.length + fuel ≤ MAX_PAGES →
      pagLoop w cn b fuel next jobs visited lc pages = .ok res →
      res.2.2.Nodup ∧ res.2.2.length ≤ MAX_PAGES := by
  intro fuel
  induction fuel with
  | zero =>
    intro w cn b next jobs visited lc pages res hnd hsub hlen hrun
    simp only [pagLoop] at hrun
    injection hrun with h
    subst h
    exact ⟨hnd, show pages.length ≤ MAX_PAGES by omega⟩
  | succ fuel ih =>
    intro w cn b next jobs visited lc pages res hnd hsub hlen hrun
    cases next with
    | none =>
      simp only [pagLoop] at hrun
      injection hrun with h
      subst h
      exact ⟨hnd, show pages.length ≤ MAX_PAGES by omega⟩
    | some nu =>
      simp only [pagLoop] at hrun
      by_cases hv : nu ∈ visited
      · rw [if_pos hv] at hrun
        injection hrun with h
        subst h
        exact ⟨hnd, show pages.length ≤ MAX_PAGES by omega⟩
      · rw [if_neg hv] at hrun
        have hnup : nu ∉ pages := fun hp => hv (hsub nu hp)
        have hnd2 : (pages ++ [nu]).Nodup := by
          simp [List.nodup_append, hnd, hnup]
        have hlen2 : (pages ++ [nu]).length ≤ MAX_PAGES := by
          simp only [List.length_append, List.length_singleton]
          omega
        cases hfe : w.fetch nu with
        | error e =>
          simp only [hfe] at hrun
          cases e with
          | status code =>
            injection hrun with h
            subst h
            exact ⟨hnd2, hlen2⟩
          | transport => exact absurd hrun (by simp)
        | ok resp =>
          simp only [hfe] at hrun
          by_cases hmd : (pyStrip (truncMd (w.h2t resp.text))).length < 100
          · rw [if_pos hmd] at hrun
            injection hrun with h
            subst h
            exact ⟨hnd2, hlen2⟩
          · rw [if_neg hmd] at hrun
            cases hex : extract_page w (truncMd (w.h2t resp.text)) cn nu b with
            | mk items nxt =>
              rw [hex] at hrun
              have hsub2 : ∀ p ∈ pages ++ [nu], p ∈ visited ++ [nu] := by
                intro p hp
                rcases List.mem_append.mp hp with h | h
                · exact List.mem_append_left _ (hsub p h)
                · exact List.mem_append_right _ h
              have hlen3 : (pages ++ [nu]).length + fuel ≤ MAX_PAGES := by
                simp only [List.length_append, List.length_singleton]
                omega
              exact ih w cn b nxt
                (jobs ++ items_to_jobs w.sha256hex items cn b)
                (visited ++ [nu]) (lc + 1) (pages ++ [nu]) res
                hnd2 hsub2 hlen3 hrun

/-- C6: the pagination loop follows a next-page URL only when it is
distinct from every page processed so far and the page cap of 20 is not
exceeded — every successful invocation of `fetch_custom` processes a
duplicate-free list of at most `MAX_PAGES` pages — and on the concrete
cyclic page graph A → B → A the extraction stops via the visited-set
check after processing exactly A and B. -/
theorem C6_pagination_terminates :
    (∀ (w : World) (cu cn : String) (ph : Option String) (r : ExtractResult),
      fetch_custom w cu cn ph = .ok r →
      r.pages.Nodup ∧ r.pages.length ≤ MAX_PAGES) ∧
    fetch_custom wCycle urlA "X" none =
      .ok ⟨[], "hash:bodyA", "OK", 2, [urlA, urlB]⟩ := by
  constructor
  · intro w cu cn ph r hr
    simp only [fetch_custom] at hr
    cases hf : w.fetch cu with
    | error e => rw [hf] at hr; exact absurd hr (by simp)
    | ok resp =>
      simp only [hf] at hr
      by_cases hunch : (pyTruthy ph && (some (w.sha256hex resp.content) == ph)) = true
      · rw [if_pos hunch] at hr
        injection hr with h
        subst h
        exact ⟨by simp, by simp [MAX_PAGES]⟩
      · rw [if_neg hunch] at hr
        by_cases hspa : detect_spa resp.text (truncMd (w.h2t resp.text)) = true
        · rw [if_pos hspa] at hr
          injection hr with h
          subst h
          exact ⟨by simp, by simp [MAX_PAGES]⟩
        · rw [if_neg hspa] at hr
          cases hex : extract_page w (truncMd (w.h2t resp.text)) cn cu (base_of cu) with
          | mk items nxt =>
            rw [hex] at hr
            cases hpag : pagLoop w cn (base_of cu) (MAX_PAGES - 1) nxt
                (items_to_jobs w.sha256hex items cn (base_of cu)) [cu] 1 [cu] with
            | error e => rw [hpag] at hr; exact absurd hr (by simp)
            | ok trip =>
              rw [hpag] at hr
              have hb := pagLoop_pages_bound (MAX_PAGES - 1) w cn (base_of cu) nxt
                (items_to_jobs w.sha256hex items cn (base_of cu)) [cu] 1 [cu] trip
                (by simp) (by simp) (by simp [MAX_PAGES]) hpag
              cases trip with
              | mk jobs rest =>
                cases rest with
                | mk lc pages =>
                  injection hr with h
                  subst h
                  exact hb
  · decide

/-- C6 (witness): the page bound applied to the concrete cyclic run — its
two processed pages are distinct and within the cap. -/
theorem C6_pagination_terminates_witness :
    ([urlA, urlB] : List String).Nodup ∧
    ([urlA, urlB] : List String).length ≤ MAX_PAGES :=
  C6_pagination_terminates.1 wCycle urlA "X" none
    ⟨[], "hash:bodyA", "OK", 2, [urlA, urlB]⟩ (by decide)

/-- C7 (counterexample): a fetch failure beyond the first page does NOT
always abort gracefully — only `httpx.HTTPStatusError` is caught in the
loop.  A transport-level failure (timeout/connection error) on page 2
propagates out of the invocation as an error instead of returning the
accumulated jobs under OK. -/
theorem C7_counterexample_transport_on_page2 :
    wPage2T.fetch urlA = .ok ⟨"bodyA", longText⟩ ∧
    wPage2T.fetch urlB = .error .transport ∧
    fetch_custom wPage2T urlA "X" none = .error .transport := by
  exact ⟨by decide, by decide, by decide⟩

/-- C7 (amended): a first-page fetch failure — of either kind — propagates
to the caller unmodified, the HTTP status code preserved so 404/410 is
distinguishable; an HTTP-status failure on a page beyond the first breaks
the pagination loop, keeping the jobs accumulated so far; concretely, a
first page listing one PM job whose next page answers HTTP 500 still
yields that job under status OK.  (A transport-level failure beyond the
first page instead propagates, per the counterexample.) -/
theorem C7_failure_semantics :
    (∀ (w : World) (cu cn : String) (ph : Option String) (e : FetchErr),
      w.fetch cu = .error e → fetch_custom w cu cn ph = .error e) ∧
    (∀ (w : World) (cn b : String) (fuel : Nat) (nu : String)
      (jobs : List NormalizedJob) (visited : List String) (lc : Nat)
      (pages : List String) (code : Nat),
      nu ∉ visited → w.fetch nu = .error (.status code) →
      pagLoop w cn b (fuel + 1) (some nu) jobs visited lc pages =
        .ok (jobs, lc, pages ++ [nu])) ∧
    fetch_custom wBreak urlA "X" none =
      .ok ⟨[jobPM], "hash:bodyA", "OK", 1, [urlA, urlB]⟩ := by
  refine ⟨fun w cu cn ph e hf => fetch_custom_first_page_error w cu cn ph e hf,
          ?_, by decide⟩
  intro w cn b fuel nu jobs visited lc pages code hnv hf
  simp only [pagLoop, hf]
  rw [if_neg hnv]

/-- C7 (witness): the amended semantics at concrete inputs — a 410 on the
first page propagates as a status error, and a 500 on a second page
returns the accumulated state gracefully. -/
theorem C7_failure_semantics_witness :
    fetch_custom w410 urlA "X" none = .error (.status 410) ∧
    pagLoop wBreak "X" "https://x.com" (4 + 1) (some urlB) [jobPM] [urlA] 1
      [urlA] = .ok ([jobPM], 1, [urlA, urlB]) :=
  ⟨C7_failure_semantics.1 w410 urlA "X" none (.status 410) rfl,
   C7_failure_semantics.2.1 wBreak "X" "https://x.com" 4 urlB [jobPM] [urlA] 1
     [urlA] 500 (by decide) (by decide)⟩

/-- Helper: `sameKey` is exactly equality of reconciliation keys. -/
theorem sameKey_iff (j : NormalizedJob) (r : JobRow) :
    sameKey j r = true ↔ rowKey r = (j.source, j.source_id) := by
  simp [sameKey, rowKey, Prod.ext_iff]

/-- Helper: the conflict test is exactly key membership. -/
theorem any_sameKey_iff (j : NormalizedJob) (t : List JobRow) :
    t.any (sameKey j) = true ↔ (j.source, j.source_id) ∈ keysOf t := by
  constructor
  · intro h
    obtain ⟨r, hr, hk⟩ := List.any_eq_true.mp h
    exact (sameKey_iff j r).mp hk ▸ List.mem_map_of_mem rowKey hr
  · intro h
    obtain ⟨r, hr, hk⟩ := List.mem_map.mp h
    exact List.any_eq_true.mpr ⟨r, hr, (sameKey_iff j r).mpr hk⟩

/-- Helper: an on-conflict update leaves every key and every `first_seen`
in place. -/
theorem upsert_one_update (now : Int) (cid : Option Nat) (j : NormalizedJob)
    (t : List JobRow) (h : t.any (sameKey j) = true) :
    keyFirstSeen (upsert_one now cid j t) = keyFirstSeen t := by
  simp only [upsert_one, if_pos h, keyFirstSeen, List.map_map]
  apply List.map_congr_left
  intro r _
  by_cases hk : sameKey j r = true <;> simp [hk, rowKey]

/-- Helper: an insert appends exactly one row carrying the job's key with
`first_seen = now`. -/
theorem upsert_one_insert (now : Int) (cid : Option Nat) (j : NormalizedJob)
    (t : List JobRow) (h : ¬ t.any (sameKey j) = true) :
    keyFirstSeen (upsert_one now cid j t) =
      keyFirstSeen t ++ [((j.source, j.source_id), now)] := by
  simp [upsert_one, h, keyFirstSeen, rowKey]

/-- Helper: keys are the first components of `keyFirstSeen`. -/
theorem keysOf_eq_map_fst (t : List JobRow) :
    keysOf t = (keyFirstSeen t).map Prod.fst := by
  simp [keysOf, keyFirstSeen, List.map_map]

/-- Helper: one upsert preserves existing keys. -/
theorem upsert_one_keys_super (now : Int) (cid : Option Nat)
    (j : NormalizedJob) (t : List JobRow) :
    keysOf t ⊆ keysOf (upsert_one now cid j t) := by
  by_cases h : t.any (sameKey j) = true
  · rw [keysOf_eq_map_fst, keysOf_eq_map_fst, upsert_one_update now cid j t h]
    exact fun a ha => ha
  · rw [keysOf_eq_map_fst, keysOf_eq_map_fst, upsert_one_insert now cid j t h]
    intro a ha
    simp only [List.map_append]
    exact List.mem_append_left _ ha

/-- Helper: after one upsert the job's key is present. -/
theorem upsert_one_key_mem (now : Int) (cid : Option Nat)
    (j : NormalizedJob) (t : List JobRow) :
    (j.source, j.source_id) ∈ keysOf (upsert_one now cid j t) := by
  by_cases h : t.any (sameKey j) = true
  · rw [keysOf_eq_map_fst, upsert_one_update now cid j t h, ← keysOf_eq_map_fst]
    exact (any_sameKey_iff j t).mp h
  · rw [keysOf_eq_map_fst, upsert_one_insert now cid j t h]
    simp

/-- Helper: one upsert preserves key distinctness (the `uq_job_source`
constraint): an update touches no key, an insert only fires when the key
is absent. -/
theorem upsert_one_nodup (now : Int) (cid : Option Nat) (j : NormalizedJob)
    (t : List JobRow) (h : (keysOf t).Nodup) :
    (keysOf (upsert_one now cid j t)).Nodup := by
  by_cases hc : t.any (sameKey j) = true
  · rw [keysOf_eq_map_fst, upsert_one_update now cid j t hc, ← keysOf_eq_map_fst]
    exact h
  · rw [keysOf_eq_map_fst, upsert_one_insert now cid j t hc]
    have hnot : (j.source, j.source_id) ∉ keysOf t := fun hmem =>
      hc ((any_sameKey_iff j t).mpr hmem)
    rw [keysOf_eq_map_fst] at hnot h
    simp only [List.map_append]
    rw [List.nodup_append]
    refine ⟨h, by simp, ?_⟩
    intro a ha hb
    simp only [List.map_cons, List.map_nil, List.mem_singleton] at hb
    exact hnot (hb ▸ ha)

/-- Helper: `upsert_jobs` is `apply_jobs` on the table paired with the
count of jobs whose apply URL is non-empty. -/
theorem upsert_jobs_foldl (jobs : List NormalizedJob) :
    ∀ (t : List JobRow) (n : Nat) (cid : Option Nat) (now : Int),
      jobs.foldl
        (fun acc j =>
          if j.url = "" then acc else (upsert_one now cid j acc.1, acc.2 + 1))
        (t, n) =
      (apply_jobs t jobs cid now,
       n + (jobs.filter (fun j => !(j.url == ""))).length) := by
  induction jobs with
  | nil => intro t n cid now; simp [apply_jobs]
  | cons j js ih =>
    intro t n cid now
    by_cases hj : j.url = ""
    · simp only [List.foldl_cons, if_pos hj]
      rw [ih]
      simp [apply_jobs, hj]
    · simp only [List.foldl_cons, if_neg hj]
      rw [ih]
      simp only [Prod.mk.injEq]
      refine ⟨by simp [apply_jobs, List.foldl_cons, if_neg hj], ?_⟩
      simp [List.filter_cons, hj]
      omega

/-- Helper: the pair returned by `upsert_jobs`. -/
theorem upsert_jobs_spec (t : List JobRow) (jobs : List NormalizedJob)
    (cid : Option Nat) (now : Int) :
    upsert_jobs t jobs cid now =
      (apply_jobs t jobs cid now,
       (jobs.filter (fun j => !(j.url == ""))).length) := by
  have := upsert_jobs_foldl jobs t 0 cid now
  simpa [upsert_jobs] using this

/-- Helper: reconciliation ignores jobs with an empty apply URL. -/
theorem apply_jobs_filter (jobs : List NormalizedJob) :
    ∀ (t : List JobRow) (cid : Option Nat) (now : Int),
      apply_jobs t (jobs.filter (fun j => !(j.url == ""))) cid now =
        apply_jobs t jobs cid now := by
  induction jobs with
  | nil => intro t cid now; rfl
  | cons j js ih =>
    intro t cid now
    by_cases hj : j.url = ""
    · have hfc : (j :: js).filter (fun j => !(j.url == "")) =
          js.filter (fun j => !(j.url == "")) := by
        simp [List.filter_cons, hj]
      rw [hfc]
      simp only [apply_jobs, List.foldl_cons, if_pos hj]
      exact ih t cid now
    · have hfc : (j :: js).filter (fun j => !(j.url == "")) =
          j :: js.filter (fun j => !(j.url == "")) := by
        simp [List.filter_cons, hj]
      rw [hfc]
      simp only [apply_jobs, List.foldl_cons, if_neg hj]
      exact ih (upsert_one now cid j t) cid now

/-- Helper: existing keys survive the whole reconciliation pass. -/
theorem apply_jobs_keys_super (jobs : List NormalizedJob) :
    ∀ (t : List JobRow) (cid : Option Nat) (now : Int),
      keysOf t ⊆ keysOf (apply_jobs t jobs cid now) := by
  induction jobs with
  | nil => intro t cid now; exact fun a ha => ha
  | cons j js ih =>
    intro t cid now
    by_cases hj : j.url = ""
    · simp only [apply_jobs, List.foldl_cons, if_pos hj]
      exact ih t cid now
    · simp only [apply_jobs, List.foldl_cons, if_neg hj]
      exact fun a ha =>
        ih (upsert_one now cid j t) cid now (upsert_one_keys_super now cid j t ha)

/-- Helper: the key of every reconciled job is present afterwards. -/
theorem apply_jobs_key_mem (jobs : List NormalizedJob) :
    ∀ (t : List JobRow) (cid : Option Nat) (now : Int) (j : NormalizedJob),
      j ∈ jobs → ¬ j.url = "" →
      (j.source, j.source_id) ∈ keysOf (apply_jobs t jobs cid now) := by
  induction jobs with
  | nil => intro t cid now j hj; exact absurd hj (List.not_mem_nil j)
  | cons j0 js ih =>
    intro t cid now j hj hurl
    rcases List.mem_cons.mp hj with h | h
    · subst h
      simp only [apply_jobs, List.foldl_cons, if_neg hurl]
      exact apply_jobs_keys_super js (upsert_one now cid j t) cid now
        (upsert_one_key_mem now cid j t)
    · by_cases hj0 : j0.url = ""
      · simp only [apply_jobs, List.foldl_cons, if_pos hj0]
        exact ih t cid now j h hurl
      · simp only [apply_jobs, List.foldl_cons, if_neg hj0]
        exact ih (upsert_one now cid j0 t) cid now j h hurl

/-- Helper: reconciliation preserves key distinctness. -/
theorem apply_jobs_nodup (jobs : List NormalizedJob) :
    ∀ (t : List JobRow) (cid : Option Nat) (now : Int),
      (keysOf t).Nodup → (keysOf (apply_jobs t jobs cid now)).Nodup := by
  induction jobs with
  | nil => intro t cid now h; exact h
  | cons j js ih =>
    intro t cid now h
    by_cases hj : j.url = ""
    · simp only [apply_jobs, List.foldl_cons, if_pos hj]
      exact ih t cid now h
    · simp only [apply_jobs, List.foldl_cons, if_neg hj]
      exact ih (upsert_one now cid j t) cid now (upsert_one_nodup now cid j t h)

/-- Helper: when every reconciled key is already present, the pass is pure
update — keys and `first_seen` values are untouched. -/
theorem apply_jobs_update_only (jobs : List NormalizedJob) :
    ∀ (t : List JobRow) (cid : Option Nat) (now : Int),
      (∀ j ∈ jobs, ¬ j.url = "" → (j.source, j.source_id) ∈ keysOf t) →
      keyFirstSeen (apply_jobs t jobs cid now) = keyFirstSeen t := by
  induction jobs with
  | nil => intro t cid now _; rfl
  | cons j js ih =>
    intro t cid now hall
    by_cases hj : j.url = ""
    · simp only [apply_jobs, List.foldl_cons, if_pos hj]
      exact ih t cid now (fun j2 h2 => hall j2 (List.mem_cons_of_mem j h2))
    · have hmem : (j.source, j.source_id) ∈ keysOf t :=
        hall j (List.mem_cons_self j js) hj
      have hany : t.any (sameKey j) = true := (any_sameKey_iff j t).mpr hmem
      have hkeys : keyFirstSeen (upsert_one now cid j t) = keyFirstSeen t :=
        upsert_one_update now cid j t hany
      have hkeys2 : keysOf (upsert_one now cid j t) = keysOf t := by
        rw [keysOf_eq_map_fst, hkeys, ← keysOf_eq_map_fst]
      have hstep : apply_jobs t (j :: js) cid now =
          apply_jobs (upsert_one now cid j t) js cid now := by
        simp only [apply_jobs, List.foldl_cons, if_neg hj]
      rw [hstep, ih (upsert_one now cid j t) cid now
        (fun j2 h2 hu => hkeys2 ▸ hall j2 (List.mem_cons_of_mem j h2) hu)]
      exact hkeys

/-- Helper: a duplicate-free key list holds any key at most once. -/
theorem nodup_key_filter_le_one (l : List (String × String))
    (k : String × String) (h : l.Nodup) :
    (l.filter (fun k2 => k2 == k)).length ≤ 1 := by
  induction l with
  | nil => simp
  | cons a as ih =>
    rw [List.nodup_cons] at h
    rw [List.filter_cons]
    by_cases ha : a = k
    · subst ha
      have hnil : as.filter (fun k2 => k2 == a) = [] := by
        rw [List.filter_eq_nil_iff]
        intro b hb
        simp only [beq_iff_eq]
        intro hba
        exact h.1 (hba ▸ hb)
      simp [hnil]
    · have : ((a == k) = true) = False := by simp [ha]
      simp only [this, if_false]
      exact ih h.2

/-- C3: reconciliation skips jobs with an empty apply URL (both in the
table and in the reported count), never produces two rows with the same
`(source, source_id)` key, and is idempotent: a second pass with the same
job list touches no key, no row count, and no `first_seen` value; and an
on-conflict update rewrites exactly `last_seen`, `is_active` and the
search index of the matching row, keeping `first_seen` and every other
field. -/
theorem C3_upsert_idempotent :
    ∀ (table : List JobRow) (jobs : List NormalizedJob) (cid : Option Nat)
      (n1 n2 : Int),
      (upsert_jobs table jobs cid n1 =
        upsert_jobs table (jobs.filter (fun j => !(j.url == ""))) cid n1) ∧
      ((upsert_jobs table jobs cid n1).2 =
        (jobs.filter (fun j => !(j.url == ""))).length) ∧
      ((keysOf table).Nodup → (keysOf (upsert_jobs table jobs cid n1).1).Nodup) ∧
      (keyFirstSeen (upsert_jobs (upsert_jobs table jobs cid n1).1 jobs cid n2).1 =
        keyFirstSeen (upsert_jobs table jobs cid n1).1) ∧
      (keysOf (upsert_jobs (upsert_jobs table jobs cid n1).1 jobs cid n2).1 =
        keysOf (upsert_jobs table jobs cid n1).1) ∧
      ((upsert_jobs (upsert_jobs table jobs cid n1).1 jobs cid n2).1.length =
        (upsert_jobs table jobs cid n1).1.length) ∧
      (∀ (now : Int) (j : NormalizedJob) (r : JobRow), r ∈ table →
        sameKey j r = true →
        updatedRow r j now ∈ upsert_one now cid j table ∧
        (updatedRow r j now).first_seen = r.first_seen ∧
        (updatedRow r j now).last_seen = now ∧
        (updatedRow r j now).is_active = true ∧
        (updatedRow r j now).search_vector =
          search_vec j.title j.company_name) := by
  intro table jobs cid n1 n2
  have hall : ∀ j ∈ jobs, ¬ j.url = "" →
      (j.source, j.source_id) ∈ keysOf (upsert_jobs table jobs cid n1).1 := by
    intro j hj hurl
    rw [upsert_jobs_spec]
    exact apply_jobs_key_mem jobs table cid n1 j hj hurl
  have hsecond : keyFirstSeen (upsert_jobs (upsert_jobs table jobs cid n1).1
      jobs cid n2).1 = keyFirstSeen (upsert_jobs table jobs cid n1).1 := by
    rw [upsert_jobs_spec (upsert_jobs table jobs cid n1).1 jobs cid n2]
    exact apply_jobs_update_only jobs (upsert_jobs table jobs cid n1).1 cid n2 hall
  refine ⟨?_, ?_, ?_, hsecond, ?_, ?_, ?_⟩
  · rw [upsert_jobs_spec, upsert_jobs_spec, apply_jobs_filter]
    simp [List.filter_filter]
  · rw [upsert_jobs_spec]
  · intro hnd
    rw [upsert_jobs_spec]
    exact apply_jobs_nodup jobs table cid n1 hnd
  · rw [keysOf_eq_map_fst, keysOf_eq_map_fst, hsecond]
  · have h1 := congrArg List.length hsecond
    simpa [keyFirstSeen] using h1
  · intro now j r hr hk
    have hany : table.any (sameKey j) = true := List.any_eq_true.mpr ⟨r, hr, hk⟩
    refine ⟨?_, rfl, rfl, rfl, rfl⟩
    simp only [upsert_one, if_pos hany]
    exact List.mem_map.mpr ⟨r, hr, by rw [if_pos hk]; rfl⟩

/-- C3 (witness): the idempotence at a concrete table and job list — the
second pass over `[jobUpd, jobNoUrl, jobNew]` keeps the key list, the row
count and every `first_seen`, the empty-URL job is skipped, and the update
row for `row0` is present with its `first_seen` intact. -/
theorem C3_upsert_idempotent_witness :
    ((upsert_jobs [row0] [jobUpd, jobNoUrl, jobNew] none 1).2 =
      ([jobUpd, jobNoUrl, jobNew].filter (fun j => !(j.url == ""))).length) ∧
    (keysOf (upsert_jobs [row0] [jobUpd, jobNoUrl, jobNew] none 1).1).Nodup ∧
    (keyFirstSeen (upsert_jobs
        (upsert_jobs [row0] [jobUpd, jobNoUrl, jobNew] none 1).1
        [jobUpd, jobNoUrl, jobNew] none 2).1 =
      keyFirstSeen (upsert_jobs [row0] [jobUpd, jobNoUrl, jobNew] none 1).1) ∧
    (updatedRow row0 jobUpd 5 ∈ upsert_one 5 none jobUpd [row0] ∧
      (updatedRow row0 jobUpd 5).first_seen = row0.first_seen) :=
  ⟨(C3_upsert_idempotent [row0] [jobUpd, jobNoUrl, jobNew] none 1 2).2.1,
   (C3_upsert_idempotent [row0] [jobUpd, jobNoUrl, jobNew] none 1 2).2.2.1
     (by decide),
   (C3_upsert_idempotent [row0] [jobUpd, jobNoUrl, jobNew] none 1 2).2.2.2.1,
   ⟨((C3_upsert_idempotent [row0] [jobUpd, jobNoUrl, jobNew] none 1 2).2.2.2.2.2.2
       5 jobUpd row0 (by decide) (by decide)).1,
    ((C3_upsert_idempotent [row0] [jobUpd, jobNoUrl, jobNew] none 1 2).2.2.2.2.2.2
       5 jobUpd row0 (by decide) (by decide)).2.1⟩⟩

/-- Helper: every job built by `_items_to_jobs` carries source "custom"
and a source id that is the 32-character prefix of the hash of its
(resolved) apply URL. -/
theorem item_to_job_shape (sha : String → String) (cn base : String)
    (item : LlmItem) (j : NormalizedJob)
    (h : item_to_job sha cn base item = some j) :
    j.source = "custom" ∧ j.source_id = pyTake (sha j.url) 32 := by
  simp only [item_to_job] at h
  split at h
  · exact absurd h (by simp)
  · split at h
    · exact absurd h (by simp)
    · injection h with h2
      subst h2
      exact ⟨rfl, rfl⟩

/-- C10: every job produced by the LLM page extractor has source "custom"
and source id `sha256(url)[:32]`, a pure function of the resolved apply
URL, so two extracted listings with equal apply URLs share one
reconciliation key, and upserting both into a duplicate-free table leaves
at most one row under that key. -/
theorem C10_source_id_pure_function :
    ∀ (sha : String → String) (items : List LlmItem) (cn base : String),
      (∀ j ∈ items_to_jobs sha items cn base,
        j.source = "custom" ∧ j.source_id = pyTake (sha j.url) 32) ∧
      (∀ j1 j2, j1 ∈ items_to_jobs sha items cn base →
        j2 ∈ items_to_jobs sha items cn base → j1.url = j2.url →
        j1.source = j2.source ∧ j1.source_id = j2.source_id) ∧
      (∀ (t : List JobRow) (cid : Option Nat) (now : Int)
        (j1 j2 : NormalizedJob), (keysOf t).Nodup →
        countKey (upsert_jobs t [j1, j2] cid now).1
          (j1.source, j1.source_id) ≤ 1) := by
  intro sha items cn base
  have hshape : ∀ j ∈ items_to_jobs sha items cn base,
      j.source = "custom" ∧ j.source_id = pyTake (sha j.url) 32 := by
    intro j hj
    obtain ⟨item, hmem, hsome⟩ := List.mem_filterMap.mp hj
    exact item_to_job_shape sha cn base item j hsome
  refine ⟨hshape, ?_, ?_⟩
  · intro j1 j2 h1 h2 hurl
    obtain ⟨hs1, hid1⟩ := hshape j1 h1
    obtain ⟨hs2, hid2⟩ := hshape j2 h2
    exact ⟨by rw [hs1, hs2], by rw [hid1, hid2, hurl]⟩
  · intro t cid now j1 j2 hnd
    have hnd2 : (keysOf (upsert_jobs t [j1, j2] cid now).1).Nodup := by
      rw [upsert_jobs_spec]
      exact apply_jobs_nodup [j1, j2] t cid now hnd
    exact nodup_key_filter_le_one _ _ hnd2

/-- C10 (witness): the shape facts at a concrete extraction — `itemPM`
normalises to `jobPM` with source "custom" and the hash-prefix source id,
and a double upsert of the same job keeps a single row under its key. -/
theorem C10_source_id_pure_function_witness :
    (jobPM.source = "custom" ∧ jobPM.source_id = pyTake (shaTag jobPM.url) 32) ∧
    countKey (upsert_jobs [] [jobPM, jobPM] none 3).1
      (jobPM.source, jobPM.source_id) ≤ 1 :=
  ⟨(C10_source_id_pure_function shaTag [itemPM] "X" "https://x.com").1 jobPM
     (by decide),
   (C10_source_id_pure_function shaTag [itemPM] "X" "https://x.com").2.2
     [] none 3 jobPM jobPM (by decide)⟩
